import Mathlib

/-
Verification of the budget-aware coding agent and orchestrator library
(`src/agent/budget.py`, `src/agent/router.py`, `src/agent/core.py`,
`src/agent/tools.py`, `src/lib/brain.py`, `src/lib/jules_wrapper.py`).

Python floats are modelled as rationals (ℚ); token counts as ℕ.
Python `int(x)` (truncation toward zero) is modelled by `pyInt`.
-/

/-- Python `int(x)` on a rational: truncation toward zero. -/
def pyInt (q : ℚ) : ℤ := if q < 0 then -((-q).floor) else q.floor

/-- One cost event, as `CostRecord` in `src/agent/budget.py`. -/
structure CostRecord where
  model : String
  input_tokens : ℕ
  output_tokens : ℕ
  cost : ℚ
  step : ℕ
deriving DecidableEq, Repr

/-- State of `BudgetTracker` (`src/agent/budget.py`).  `est_steps_raw` is the
private `_estimated_remaining_steps` field. -/
structure BudgetTracker where
  total_budget : ℚ
  spent : ℚ
  records : List CostRecord
  est_steps_raw : ℤ
deriving DecidableEq, Repr

/-- `BudgetTracker.__init__(total_budget)`. -/
def BudgetTracker.init (b : ℚ) : BudgetTracker :=
  { total_budget := b, spent := 0, records := [], est_steps_raw := 10 }

/-- Property `remaining`: `max(total_budget - spent, 0.0)`. -/
def BudgetTracker.remaining (bt : BudgetTracker) : ℚ :=
  max (bt.total_budget - bt.spent) 0

/-- Property `utilization`: `spent / total_budget`, 1 when the budget is 0. -/
def BudgetTracker.utilization (bt : BudgetTracker) : ℚ :=
  if bt.total_budget = 0 then 1 else bt.spent / bt.total_budget

/-- Property `estimated_remaining_steps`: `max(_estimated_remaining_steps, 1)`. -/
def BudgetTracker.estimated_remaining_steps (bt : BudgetTracker) : ℤ :=
  max bt.est_steps_raw 1

/-- The `estimated_remaining_steps` setter: stores `max(value, 1)`. -/
def BudgetTracker.set_estimated_remaining_steps (bt : BudgetTracker) (v : ℤ) : BudgetTracker :=
  { bt with est_steps_raw := max v 1 }

/-- Property `budget_per_step`: `remaining / estimated_remaining_steps`. -/
def BudgetTracker.budget_per_step (bt : BudgetTracker) : ℚ :=
  bt.remaining / (bt.estimated_remaining_steps : ℚ)

/-- Property `avg_cost_per_step`: 0 with no records, else `spent / len(records)`. -/
def BudgetTracker.avg_cost_per_step (bt : BudgetTracker) : ℚ :=
  if bt.records = [] then 0 else bt.spent / (bt.records.length : ℚ)

/-- Arguments of one `BudgetTracker.record` call. -/
structure CallArgs where
  model_id : String
  input_tokens : ℕ
  output_tokens : ℕ
  input_cost_per_1m : ℚ
  output_cost_per_1m : ℚ
  step : ℕ
deriving DecidableEq, Repr

/-- `BudgetTracker.record`: computes the call cost, adds it to `spent`,
appends a `CostRecord`, re-projects `_estimated_remaining_steps` once at
least two records exist and the average step cost is positive, and returns
the cost together with the new state. -/
def BudgetTracker.record (bt : BudgetTracker) (a : CallArgs) : BudgetTracker × ℚ :=
  let cost := ((a.input_tokens : ℚ) * a.input_cost_per_1m
      + (a.output_tokens : ℚ) * a.output_cost_per_1m) / 1000000
  let bt1 : BudgetTracker :=
    { bt with
        spent := bt.spent + cost
        records := bt.records ++
          [{ model := a.model_id, input_tokens := a.input_tokens,
             output_tokens := a.output_tokens, cost := cost, step := a.step }] }
  let bt2 : BudgetTracker :=
    if 2 ≤ bt1.records.length ∧ 0 < bt1.avg_cost_per_step then
      { bt1 with est_steps_raw := max (pyInt (bt1.remaining / bt1.avg_cost_per_step)) 1 }
    else bt1
  (bt2, cost)

/-- `BudgetTracker.can_afford(estimated_cost)`: `remaining >= estimated_cost`. -/
def BudgetTracker.can_afford (bt : BudgetTracker) (estimated_cost : ℚ) : Prop :=
  estimated_cost ≤ bt.remaining

instance (bt : BudgetTracker) (c : ℚ) : Decidable (bt.can_afford c) :=
  inferInstanceAs (Decidable (c ≤ bt.remaining))

/-- `BudgetTracker.max_output_tokens`.  Returns `none` exactly where Python
raises `ZeroDivisionError`: a zero output price with a positive output
budget. -/
def BudgetTracker.max_output_tokens (bt : BudgetTracker)
    (input_cost_per_1m output_cost_per_1m : ℚ)
    (estimated_input_tokens : ℕ := 2000) : Option ℤ :=
  let budget_for_call := bt.budget_per_step
  let input_cost := (estimated_input_tokens : ℚ) * input_cost_per_1m / 1000000
  let budget_for_output := budget_for_call - input_cost
  if budget_for_output ≤ 0 then some 256
  else if output_cost_per_1m = 0 then none
  else some (max 256 (min (pyInt (budget_for_output / (output_cost_per_1m / 1000000))) 16384))

/-- Folding a sequence of `record` calls over a tracker. -/
def BudgetTracker.applyCalls (bt : BudgetTracker) (calls : List CallArgs) : BudgetTracker :=
  calls.foldl (fun b a => (b.record a).1) bt

/-- Sum of the realized costs stored in the appended cost records. -/
def BudgetTracker.sumCosts (bt : BudgetTracker) : ℚ :=
  (bt.records.map CostRecord.cost).sum

theorem BudgetTracker.record_spent (bt : BudgetTracker) (a : CallArgs) :
    (bt.record a).1.spent = bt.spent + (bt.record a).2 ∧
    (bt.record a).1.records = bt.records ++
      [{ model := a.model_id, input_tokens := a.input_tokens,
         output_tokens := a.output_tokens, cost := (bt.record a).2, step := a.step }] := by
  unfold BudgetTracker.record
  dsimp only
  constructor <;> split <;> rfl

theorem BudgetTracker.record_cost_formula (bt : BudgetTracker) (a : CallArgs) :
    (bt.record a).2 = ((a.input_tokens : ℚ) * a.input_cost_per_1m
      + (a.output_tokens : ℚ) * a.output_cost_per_1m) / 1000000 := by
  unfold BudgetTracker.record
  dsimp only

theorem BudgetTracker.record_sumCosts (bt : BudgetTracker) (a : CallArgs) :
    (bt.record a).1.sumCosts = bt.sumCosts + (bt.record a).2 := by
  have h := (BudgetTracker.record_spent bt a).2
  unfold BudgetTracker.sumCosts
  rw [h]
  simp

theorem BudgetTracker.applyCalls_inv (calls : List CallArgs) (bt : BudgetTracker)
    (h : bt.spent = bt.sumCosts) :
    (bt.applyCalls calls).spent = (bt.applyCalls calls).sumCosts := by
  induction calls generalizing bt with
  | nil => simpa [BudgetTracker.applyCalls]
  | cons a rest ih =>
    have hstep : ((bt.record a).1).spent = ((bt.record a).1).sumCosts := by
      rw [(BudgetTracker.record_spent bt a).1, BudgetTracker.record_sumCosts bt a, h]
    simpa [BudgetTracker.applyCalls] using ih (bt.record a).1 hstep

theorem BudgetTracker.record_spent_mono (bt : BudgetTracker) (a : CallArgs)
    (h1 : 0 ≤ a.input_cost_per_1m) (h2 : 0 ≤ a.output_cost_per_1m) :
    bt.spent ≤ (bt.record a).1.spent := by
  rw [(BudgetTracker.record_spent bt a).1, BudgetTracker.record_cost_formula bt a]
  have : (0 : ℚ) ≤ ((a.input_tokens : ℚ) * a.input_cost_per_1m
      + (a.output_tokens : ℚ) * a.output_cost_per_1m) / 1000000 := by positivity
  linarith

/-- C5: across any sequence of `record` calls starting from a fresh tracker,
`spent` equals the sum of the realized costs of the appended records, each
call returns the realized cost `(in_tokens * in_price + out_tokens * out_price) / 10^6`
and stores exactly that cost, and (for the non-negative prices the program
uses) `spent` is monotonically non-decreasing across the sequence. -/
theorem spent_monotone_and_sum_of_costs (b : ℚ) (calls : List CallArgs) :
    ((BudgetTracker.init b).applyCalls calls).spent
      = ((BudgetTracker.init b).applyCalls calls).sumCosts ∧
    (∀ (bt : BudgetTracker) (a : CallArgs),
      (bt.record a).2 = ((a.input_tokens : ℚ) * a.input_cost_per_1m
          + (a.output_tokens : ℚ) * a.output_cost_per_1m) / 1000000 ∧
      (bt.record a).1.spent = bt.spent + (bt.record a).2 ∧
      (bt.record a).1.records = bt.records ++
        [{ model := a.model_id, input_tokens := a.input_tokens,
           output_tokens := a.output_tokens, cost := (bt.record a).2, step := a.step }]) ∧
    ((∀ a ∈ calls, 0 ≤ a.input_cost_per_1m ∧ 0 ≤ a.output_cost_per_1m) →
      ∀ n : ℕ, ((BudgetTracker.init b).applyCalls (calls.take n)).spent
        ≤ ((BudgetTracker.init b).applyCalls (calls.take (n + 1))).spent) := by
  refine ⟨?_, ?_, ?_⟩
  · exact BudgetTracker.applyCalls_inv calls (BudgetTracker.init b) (by
      simp [BudgetTracker.init, BudgetTracker.sumCosts])
  · intro bt a
    exact ⟨BudgetTracker.record_cost_formula bt a, (BudgetTracker.record_spent bt a).1,
      (BudgetTracker.record_spent bt a).2⟩
  · intro hnn n
    rw [List.take_succ]
    cases hg : calls[n]? with
    | none => simp [hg, BudgetTracker.applyCalls]
    | some a =>
      have ha : a ∈ calls := List.getElem?_mem hg
      have := hnn a ha
      simp only [hg, Option.toList, BudgetTracker.applyCalls, List.foldl_append,
        List.foldl_cons, List.foldl_nil]
      exact BudgetTracker.record_spent_mono _ a this.1 this.2

/-- C2 counterexample: with a fresh tracker holding budget 1 and the
non-negative inputs input-price 0, output-price 0, estimated input tokens
2000, the output budget is positive and the code divides by
`output_cost_per_1m / 10^6 = 0`: Python raises `ZeroDivisionError`
(modelled as `none`), so `max_output_tokens` does not return a value in
[256, 16384] for all non-negative inputs. -/
theorem max_output_tokens_zero_price_fails :
    (BudgetTracker.init 1).max_output_tokens 0 0 2000 = none := by
  unfold BudgetTracker.max_output_tokens BudgetTracker.budget_per_step
    BudgetTracker.remaining BudgetTracker.estimated_remaining_steps BudgetTracker.init
  norm_num

/-- C2 (amended: the output price must be strictly positive; at output price
0 with a positive output budget the code raises `ZeroDivisionError`): for
every tracker state, non-negative input price and estimated input tokens,
and positive output price, `max_output_tokens` returns an integer in
[256, 16384]; it returns 256 when budget-per-step minus the estimated input
cost is ≤ 0 and otherwise the clamp of
(budget-per-step − input cost) / (output price / 10^6) into [256, 16384]. -/
theorem max_output_tokens_range (bt : BudgetTracker)
    (inP outP : ℚ) (estIn : ℕ) (hout : 0 < outP) :
    ∃ n : ℤ, bt.max_output_tokens inP outP estIn = some n ∧
      256 ≤ n ∧ n ≤ 16384 ∧
      (bt.budget_per_step - (estIn : ℚ) * inP / 1000000 ≤ 0 → n = 256) ∧
      (0 < bt.budget_per_step - (estIn : ℚ) * inP / 1000000 →
        n = max 256 (min (pyInt ((bt.budget_per_step - (estIn : ℚ) * inP / 1000000)
          / (outP / 1000000))) 16384)) := by
  unfold BudgetTracker.max_output_tokens
  dsimp only
  split
  · rename_i hle
    exact ⟨256, rfl, le_refl _, by norm_num, fun _ => rfl, fun hpos => absurd hle (by linarith)⟩
  · rename_i hgt
    rw [if_neg (by linarith : ¬ outP = 0)]
    refine ⟨_, rfl, le_max_left _ _, ?_, ?_, fun _ => rfl⟩
    · exact max_le (by norm_num) (min_le_right _ _)
    · intro hle
      exact absurd hle (by push_neg at hgt ⊢; linarith)

/-- C2 witness: tracker with budget 1, prices of the standard Anthropic
model, 2000 estimated input tokens. -/
theorem max_output_tokens_range_witness :
    ∃ n : ℤ, (BudgetTracker.init 1).max_output_tokens 3 15 2000 = some n ∧
      256 ≤ n ∧ n ≤ 16384 ∧
      ((BudgetTracker.init 1).budget_per_step - (2000 : ℚ) * 3 / 1000000 ≤ 0 → n = 256) ∧
      (0 < (BudgetTracker.init 1).budget_per_step - (2000 : ℚ) * 3 / 1000000 →
        n = max 256 (min (pyInt (((BudgetTracker.init 1).budget_per_step
          - (2000 : ℚ) * 3 / 1000000) / ((15 : ℚ) / 1000000))) 16384)) :=
  max_output_tokens_range (BudgetTracker.init 1) 3 15 2000 (by norm_num)

/-- Model capability tiers (`ModelTier` in `src/agent/router.py`). -/
inductive ModelTier where
  | BUDGET
  | ECONOMY
  | STANDARD
  | PREMIUM
deriving DecidableEq, Repr

/-- `ModelTier.value`: 1 to 4 from cheapest to most capable. -/
def ModelTier.value : ModelTier → ℕ
  | .BUDGET => 1
  | .ECONOMY => 2
  | .STANDARD => 3
  | .PREMIUM => 4

/-- `StepType` in `src/agent/router.py`. -/
inductive StepType where
  | PLAN
  | EXECUTE
  | VERIFY
  | SIMPLE
deriving DecidableEq, Repr

/-- `STEP_CAPABILITY_WEIGHT`: how much model capability matters per step type. -/
def STEP_CAPABILITY_WEIGHT : StepType → ℚ
  | .PLAN => 6 / 10
  | .EXECUTE => 1
  | .VERIFY => 5 / 10
  | .SIMPLE => 1 / 10

/-- `ModelInfo` in `src/agent/router.py`. -/
structure ModelInfo where
  id : String
  provider : String
  tier : ModelTier
  input_cost_per_1m : ℚ
  output_cost_per_1m : ℚ
  context_window : ℕ
deriving DecidableEq, Repr

/-- `ModelInfo.estimate_call_cost(input_tokens, output_tokens)`. -/
def ModelInfo.estimate_call_cost (m : ModelInfo)
    (input_tokens : ℕ := 2000) (output_tokens : ℕ := 1000) : ℚ :=
  ((input_tokens : ℚ) * m.input_cost_per_1m
    + (output_tokens : ℚ) * m.output_cost_per_1m) / 1000000

/-- Python `min(xs, key=f)` over a head/tail split: the first element with
the minimal key (`min` keeps the earliest among equal keys). -/
def pyMinBy (f : ModelInfo → ℚ) : ModelInfo → List ModelInfo → ModelInfo
  | best, [] => best
  | best, x :: xs => if f x < f best then pyMinBy f x xs else pyMinBy f best xs

/-- `ModelRouter._cheapest`: `min(self.models, key=estimate_call_cost())`,
`none` when the model list is empty (Python `min([])` raises; the router's
constructor rejects an empty list). -/
def routerCheapest (models : List ModelInfo) : Option ModelInfo :=
  match models with
  | [] => none
  | m :: ms => some (pyMinBy (fun x => x.estimate_call_cost) m ms)

/-- The head of Python's stable `sort(key=score, reverse=True)`: the first
element of the list whose score is maximal (stable descending sort keeps
the original order among equal scores, so the head is the earliest
maximum; a later element replaces the current best only when its score is
strictly greater). -/
def pyMaxBy (f : ModelInfo × ℚ → ℚ) : ModelInfo × ℚ → List (ModelInfo × ℚ) → ModelInfo × ℚ
  | best, [] => best
  | best, x :: xs => if f best < f x then pyMaxBy f x xs else pyMaxBy f best xs

/-- The candidate score inside `ModelRouter.select`: capability (tier / 4)
weighted against savings (1 − cost / per-step budget, 0 when the budget
is not positive). -/
def candidateScore (w B : ℚ) (mc : ModelInfo × ℚ) : ℚ :=
  (w * ((mc.1.tier.value : ℚ) / (ModelTier.PREMIUM.value : ℚ)))
    + ((1 - w) * (if 0 < B then 1 - mc.2 / B else 0))

/-- `ModelRouter.select(step_type, estimated_input_tokens, estimated_output_tokens)`.
`models` is `self.models` (registry filtered to available providers and
sorted ascending by default-estimate cost in the constructor); `none` only
for an empty model list, which the constructor rejects. -/
def ModelRouter.select (models : List ModelInfo) (bt : BudgetTracker)
    (step_type : StepType) (estimated_input_tokens : ℕ := 2000)
    (estimated_output_tokens : ℕ := 1000) : Option ModelInfo :=
  let per_step_budget := bt.budget_per_step
  let capability_weight := STEP_CAPABILITY_WEIGHT step_type
  if 95 / 100 < bt.utilization then routerCheapest models
  else
    let candidates := models.filterMap (fun m =>
      let cost := m.estimate_call_cost estimated_input_tokens estimated_output_tokens
      if cost ≤ per_step_budget then some (m, cost) else none)
    match candidates with
    | [] => routerCheapest models
    | c :: cs => some (pyMaxBy (candidateScore capability_weight per_step_budget) c cs).1

theorem pyMinBy_mem (f : ModelInfo → ℚ) (m : ModelInfo) (ms : List ModelInfo) :
    pyMinBy f m ms = m ∨ pyMinBy f m ms ∈ ms := by
  induction ms generalizing m with
  | nil => simp [pyMinBy]
  | cons x xs ih =>
    simp only [pyMinBy]
    split
    · rcases ih x with h | h
      · exact Or.inr (by simp [h])
      · exact Or.inr (List.mem_cons_of_mem _ h)
    · rcases ih m with h | h
      · exact Or.inl h
      · exact Or.inr (List.mem_cons_of_mem _ h)

theorem pyMinBy_le (f : ModelInfo → ℚ) (m : ModelInfo) (ms : List ModelInfo) :
    ∀ x, (x = m ∨ x ∈ ms) → f (pyMinBy f m ms) ≤ f x := by
  induction ms generalizing m with
  | nil =>
    intro x hx
    rcases hx with heq | h
    · subst heq; simp [pyMinBy]
    · simp at h
  | cons y ys ih =>
    intro x hx
    simp only [pyMinBy]
    split
    · rename_i hlt
      have hyy : f (pyMinBy f y ys) ≤ f y := ih y y (Or.inl rfl)
      rcases hx with heq | hx
      · subst heq; exact le_trans hyy (le_of_lt hlt)
      · rcases List.mem_cons.1 hx with heq | hx
        · subst heq; exact hyy
        · exact ih y x (Or.inr hx)
    · rename_i hge
      push_neg at hge
      have hmm : f (pyMinBy f m ys) ≤ f m := ih m m (Or.inl rfl)
      rcases hx with heq | hx
      · subst heq; exact hmm
      · rcases List.mem_cons.1 hx with heq | hx
        · subst heq; exact le_trans hmm hge
        · exact ih m x (Or.inr hx)

theorem pyMaxBy_mem (f : ModelInfo × ℚ → ℚ) (c : ModelInfo × ℚ) (cs : List (ModelInfo × ℚ)) :
    pyMaxBy f c cs = c ∨ pyMaxBy f c cs ∈ cs := by
  induction cs generalizing c with
  | nil => simp [pyMaxBy]
  | cons x xs ih =>
    simp only [pyMaxBy]
    split
    · rcases ih x with h | h
      · exact Or.inr (by simp [h])
      · exact Or.inr (List.mem_cons_of_mem _ h)
    · rcases ih c with h | h
      · exact Or.inl h
      · exact Or.inr (List.mem_cons_of_mem _ h)

theorem routerCheapest_spec (models : List ModelInfo) (hne : models ≠ []) :
    ∃ c, routerCheapest models = some c ∧ c ∈ models ∧
      ∀ m ∈ models, c.estimate_call_cost ≤ m.estimate_call_cost := by
  match models with
  | [] => exact absurd rfl hne
  | m :: ms =>
    refine ⟨pyMinBy (fun x => x.estimate_call_cost) m ms, rfl, ?_, ?_⟩
    · rcases pyMinBy_mem (fun x => x.estimate_call_cost) m ms with h | h
      · simp [h]
      · exact List.mem_cons_of_mem _ h
    · intro x hx
      exact pyMinBy_le (fun x => x.estimate_call_cost) m ms x
        (by rcases List.mem_cons.1 hx with rfl | h; exact Or.inl rfl; exact Or.inr h)

theorem filterMap_candidate_mem (models : List ModelInfo) (B : ℚ) (ein eout : ℕ)
    (mc : ModelInfo × ℚ)
    (h : mc ∈ models.filterMap (fun m =>
      let cost := m.estimate_call_cost ein eout
      if cost ≤ B then some (m, cost) else none)) :
    mc.1 ∈ models := by
  rcases List.mem_filterMap.1 h with ⟨a, ha, hfa⟩
  dsimp only at hfa
  split at hfa
  · cases hfa; exact ha
  · cases hfa

/-- C3: for every step type, token estimates and budget state, `select`
returns a model from the router's available list, and whenever utilization
exceeds 0.95 the returned model is the cheapest available one (minimal
default-estimate call cost). -/
theorem select_member_and_low_budget_guard (models : List ModelInfo)
    (bt : BudgetTracker) (step_type : StepType) (ein eout : ℕ)
    (hne : models ≠ []) :
    ∃ m, ModelRouter.select models bt step_type ein eout = some m ∧ m ∈ models ∧
      (95 / 100 < bt.utilization →
        ∀ m' ∈ models, m.estimate_call_cost ≤ m'.estimate_call_cost) := by
  unfold ModelRouter.select
  dsimp only
  split
  · obtain ⟨c, hc, hmem, hmin⟩ := routerCheapest_spec models hne
    exact ⟨c, hc, hmem, fun _ => hmin⟩
  · rename_i hutil
    cases hcand : models.filterMap (fun m =>
        let cost := m.estimate_call_cost ein eout
        if cost ≤ bt.budget_per_step then some (m, cost) else none) with
    | nil =>
      obtain ⟨c, hc, hmem, hmin⟩ := routerCheapest_spec models hne
      exact ⟨c, hc, hmem, fun h => absurd h hutil⟩
    | cons c cs =>
      refine ⟨_, rfl, ?_, fun h => absurd h hutil⟩
      have hmem : pyMaxBy (candidateScore (STEP_CAPABILITY_WEIGHT step_type)
          bt.budget_per_step) c cs ∈ c :: cs := by
        rcases pyMaxBy_mem (candidateScore (STEP_CAPABILITY_WEIGHT step_type)
            bt.budget_per_step) c cs with h | h
        · simp [h]
        · exact List.mem_cons_of_mem _ h
      have : pyMaxBy (candidateScore (STEP_CAPABILITY_WEIGHT step_type)
          bt.budget_per_step) c cs ∈ models.filterMap (fun m =>
            let cost := m.estimate_call_cost ein eout
            if cost ≤ bt.budget_per_step then some (m, cost) else none) := by
        rw [hcand]; exact hmem
      exact filterMap_candidate_mem models bt.budget_per_step ein eout _ this

/-- C3 witness: one Google-flash-shaped model, fresh tracker. -/
theorem select_member_and_low_budget_guard_witness :
    ∃ m, ModelRouter.select [⟨"gemini-2-0-flash", "google", .ECONOMY, 1/10, 4/10, 1000000⟩]
        (BudgetTracker.init 1) .EXECUTE 2000 1000 = some m ∧
      m ∈ [⟨"gemini-2-0-flash", "google", .ECONOMY, 1/10, 4/10, 1000000⟩] ∧
      (95 / 100 < (BudgetTracker.init 1).utilization →
        ∀ m' ∈ [(⟨"gemini-2-0-flash", "google", .ECONOMY, 1/10, 4/10, 1000000⟩ : ModelInfo)],
          m.estimate_call_cost ≤ m'.estimate_call_cost) :=
  select_member_and_low_budget_guard _ (BudgetTracker.init 1) .EXECUTE 2000 1000 (by simp)

theorem select_two_models (m1 m2 : ModelInfo) (bt : BudgetTracker)
    (step_type : StepType) (ein eout : ℕ)
    (hutil : ¬ 95 / 100 < bt.utilization)
    (hfit1 : m1.estimate_call_cost ein eout ≤ bt.budget_per_step)
    (hfit2 : m2.estimate_call_cost ein eout ≤ bt.budget_per_step) :
    ModelRouter.select [m1, m2] bt step_type ein eout =
      some (if candidateScore (STEP_CAPABILITY_WEIGHT step_type) bt.budget_per_step
              (m1, m1.estimate_call_cost ein eout) <
            candidateScore (STEP_CAPABILITY_WEIGHT step_type) bt.budget_per_step
              (m2, m2.estimate_call_cost ein eout)
            then m2 else m1) := by
  unfold ModelRouter.select
  dsimp only
  rw [if_neg hutil]
  simp only [List.filterMap_cons, List.filterMap_nil, if_pos hfit1, if_pos hfit2]
  simp only [pyMaxBy]
  split
  · rfl
  · rfl

theorem candidateScore_lt_iff (w B : ℚ) (hw : 0 < w) (m1 m2 : ModelInfo) (c : ℚ) :
    (candidateScore w B (m1, c) < candidateScore w B (m2, c) ↔
      m1.tier.value < m2.tier.value) := by
  unfold candidateScore
  rw [add_lt_add_iff_right, mul_lt_mul_left hw,
    div_lt_div_iff_of_pos_right (by norm_num [ModelTier.value] : (0:ℚ) < (ModelTier.PREMIUM.value : ℚ))]
  exact_mod_cast Iff.rfl

theorem select_equal_cost_case (m1 m2 : ModelInfo) (bt : BudgetTracker)
    (step_type : StepType) (ein eout : ℕ)
    (hw : 0 < STEP_CAPABILITY_WEIGHT step_type)
    (hutil : ¬ 95 / 100 < bt.utilization)
    (hfit1 : m1.estimate_call_cost ein eout ≤ bt.budget_per_step)
    (hfit2 : m2.estimate_call_cost ein eout ≤ bt.budget_per_step)
    (heq : m1.estimate_call_cost ein eout = m2.estimate_call_cost ein eout) :
    ModelRouter.select [m1, m2] bt step_type ein eout =
      some (if m1.tier.value < m2.tier.value then m2 else m1) := by
  have hsel := select_two_models m1 m2 bt step_type ein eout hutil hfit1 hfit2
  rw [heq] at hsel
  rw [hsel]
  congr 1
  by_cases h : m1.tier.value < m2.tier.value
  · rw [if_pos ((candidateScore_lt_iff _ _ hw m1 m2 _).2 h), if_pos h]
  · rw [if_neg (fun hc => h ((candidateScore_lt_iff _ _ hw m1 m2 _).1 hc)), if_neg h]

/-- C4 counterexample: two models both fitting the per-step budget with
equal estimated call costs for the requested token counts (economy tier,
prices 1/2, against standard tier, prices 2/1, at 1000/1000 tokens: both
cost 0.003) and the models sorted cheaper-first by default estimate as the
constructor leaves them.  With step type `simple`, `select` returns the
higher-tier `model-b`, not the cheaper lower-tier `model-a`: the claim
that `simple` picks the cheaper (lower-tier) model is false. -/
theorem select_simple_equal_cost_counterexample :
    ModelRouter.select
      [⟨"model-a", "prov", .ECONOMY, 1, 2, 100000⟩,
       ⟨"model-b", "prov", .STANDARD, 2, 1, 100000⟩]
      (BudgetTracker.init 1) .SIMPLE 1000 1000
      = some ⟨"model-b", "prov", .STANDARD, 2, 1, 100000⟩ ∧
    (⟨"model-b", "prov", .STANDARD, 2, 1, 100000⟩ : ModelInfo)
      ≠ ⟨"model-a", "prov", .ECONOMY, 1, 2, 100000⟩ := by
  constructor
  · rw [select_equal_cost_case _ _ _ _ _ _
      (by norm_num [STEP_CAPABILITY_WEIGHT])
      (by norm_num [BudgetTracker.utilization, BudgetTracker.init])
      (by norm_num [ModelInfo.estimate_call_cost, BudgetTracker.budget_per_step,
        BudgetTracker.remaining, BudgetTracker.estimated_remaining_steps, BudgetTracker.init])
      (by norm_num [ModelInfo.estimate_call_cost, BudgetTracker.budget_per_step,
        BudgetTracker.remaining, BudgetTracker.estimated_remaining_steps, BudgetTracker.init])
      (by norm_num [ModelInfo.estimate_call_cost])]
    norm_num [ModelTier.value]
  · simp

/-- C4 (amended: with two candidate models of equal estimated call cost,
both `execute` and `simple` select the higher-tier model — on equal costs
the savings scores coincide, so any positive capability weight favours the
higher tier; the cheaper-first stable order decides only exact score ties,
in particular equal tiers). -/
theorem select_equal_cost_tier_preference (m1 m2 : ModelInfo) (bt : BudgetTracker)
    (ein eout : ℕ)
    (hutil : ¬ 95 / 100 < bt.utilization)
    (hsorted : m1.estimate_call_cost ≤ m2.estimate_call_cost)
    (hfit1 : m1.estimate_call_cost ein eout ≤ bt.budget_per_step)
    (hfit2 : m2.estimate_call_cost ein eout ≤ bt.budget_per_step)
    (heq : m1.estimate_call_cost ein eout = m2.estimate_call_cost ein eout) :
    (m1.tier.value < m2.tier.value →
      ModelRouter.select [m1, m2] bt .EXECUTE ein eout = some m2 ∧
      ModelRouter.select [m1, m2] bt .SIMPLE ein eout = some m2) ∧
    (m2.tier.value < m1.tier.value →
      ModelRouter.select [m1, m2] bt .EXECUTE ein eout = some m1 ∧
      ModelRouter.select [m1, m2] bt .SIMPLE ein eout = some m1) ∧
    (m1.tier.value = m2.tier.value →
      ModelRouter.select [m1, m2] bt .EXECUTE ein eout = some m1 ∧
      ModelRouter.select [m1, m2] bt .SIMPLE ein eout = some m1) := by
  have hx := select_equal_cost_case m1 m2 bt .EXECUTE ein eout
    (by norm_num [STEP_CAPABILITY_WEIGHT]) hutil hfit1 hfit2 heq
  have hs := select_equal_cost_case m1 m2 bt .SIMPLE ein eout
    (by norm_num [STEP_CAPABILITY_WEIGHT]) hutil hfit1 hfit2 heq
  refine ⟨fun h => ?_, fun h => ?_, fun h => ?_⟩
  · rw [if_pos h] at hx hs; exact ⟨hx, hs⟩
  · rw [if_neg (by omega)] at hx hs; exact ⟨hx, hs⟩
  · rw [if_neg (by omega)] at hx hs; exact ⟨hx, hs⟩

/-- C4 witness: the two equal-cost models of the counterexample. -/
theorem select_equal_cost_tier_preference_witness :
    ((⟨"model-a", "prov", .ECONOMY, 1, 2, 100000⟩ : ModelInfo).tier.value
        < (⟨"model-b", "prov", .STANDARD, 2, 1, 100000⟩ : ModelInfo).tier.value →
      ModelRouter.select
        [⟨"model-a", "prov", .ECONOMY, 1, 2, 100000⟩,
         ⟨"model-b", "prov", .STANDARD, 2, 1, 100000⟩]
        (BudgetTracker.init 1) .EXECUTE 1000 1000
        = some ⟨"model-b", "prov", .STANDARD, 2, 1, 100000⟩ ∧
      ModelRouter.select
        [⟨"model-a", "prov", .ECONOMY, 1, 2, 100000⟩,
         ⟨"model-b", "prov", .STANDARD, 2, 1, 100000⟩]
        (BudgetTracker.init 1) .SIMPLE 1000 1000
        = some ⟨"model-b", "prov", .STANDARD, 2, 1, 100000⟩) ∧
    ((⟨"model-b", "prov", .STANDARD, 2, 1, 100000⟩ : ModelInfo).tier.value
        < (⟨"model-a", "prov", .ECONOMY, 1, 2, 100000⟩ : ModelInfo).tier.value →
      ModelRouter.select
        [⟨"model-a", "prov", .ECONOMY, 1, 2, 100000⟩,
         ⟨"model-b", "prov", .STANDARD, 2, 1, 100000⟩]
        (BudgetTracker.init 1) .EXECUTE 1000 1000
        = some ⟨"model-a", "prov", .ECONOMY, 1, 2, 100000⟩ ∧
      ModelRouter.select
        [⟨"model-a", "prov", .ECONOMY, 1, 2, 100000⟩,
         ⟨"model-b", "prov", .STANDARD, 2, 1, 100000⟩]
        (BudgetTracker.init 1) .SIMPLE 1000 1000
        = some ⟨"model-a", "prov", .ECONOMY, 1, 2, 100000⟩) ∧
    ((⟨"model-a", "prov", .ECONOMY, 1, 2, 100000⟩ : ModelInfo).tier.value
        = (⟨"model-b", "prov", .STANDARD, 2, 1, 100000⟩ : ModelInfo).tier.value →
      ModelRouter.select
        [⟨"model-a", "prov", .ECONOMY, 1, 2, 100000⟩,
         ⟨"model-b", "prov", .STANDARD, 2, 1, 100000⟩]
        (BudgetTracker.init 1) .EXECUTE 1000 1000
        = some ⟨"model-a", "prov", .ECONOMY, 1, 2, 100000⟩ ∧
      ModelRouter.select
        [⟨"model-a", "prov", .ECONOMY, 1, 2, 100000⟩,
         ⟨"model-b", "prov", .STANDARD, 2, 1, 100000⟩]
        (BudgetTracker.init 1) .SIMPLE 1000 1000
        = some ⟨"model-a", "prov", .ECONOMY, 1, 2, 100000⟩) :=
  select_equal_cost_tier_preference _ _ (BudgetTracker.init 1) 1000 1000
    (by norm_num [BudgetTracker.utilization, BudgetTracker.init])
    (by norm_num [ModelInfo.estimate_call_cost])
    (by norm_num [ModelInfo.estimate_call_cost, BudgetTracker.budget_per_step,
      BudgetTracker.remaining, BudgetTracker.estimated_remaining_steps, BudgetTracker.init])
    (by norm_num [ModelInfo.estimate_call_cost, BudgetTracker.budget_per_step,
      BudgetTracker.remaining, BudgetTracker.estimated_remaining_steps, BudgetTracker.init])
    (by norm_num [ModelInfo.estimate_call_cost])

/-- The fields of a provider completion the agent loop inspects
(`Agent.run`, `src/agent/core.py`): usage token counts, whether the
response carried tool calls, whether one of them was `task_complete`, and
whether the stop reason was `end_turn`. -/
structure CallResult where
  input_tokens : ℕ
  output_tokens : ℕ
  has_tool_calls : Bool
  has_task_complete : Bool
  end_turn : Bool
deriving DecidableEq, Repr

/-- The loop state of `Agent.run`: the budget tracker, the step counter,
the `completed` flag, and a count of provider invocations made so far
(0 at session start; a step that reaches the provider adds at least one). -/
structure AgentState where
  bt : BudgetTracker
  step : ℕ
  completed : Bool
  provider_calls : ℕ
deriving DecidableEq, Repr

/-- How one iteration of the `while` body of `Agent.run` ended. -/
inductive IterResult where
  | exhausted
  | providers_failed
  | crashed
  | stepped
deriving DecidableEq, Repr

/-- One iteration of the `while` body of `Agent.run` (`src/agent/core.py`,
lines 116-215).  External effects are oracles: `ctx` is the step's
estimated context token count (`_estimate_context_tokens()`), `call` the
provider outcome after the fallback chain (`none` when the chosen provider
and every fallback raised).  `crashed` marks the unreachable-in-practice
Python crash points: `min` over an empty model list and a
`ZeroDivisionError` inside `max_output_tokens`.  Tool execution mutates
only the file system and message list, neither of which the budget claims
inspect, so it is not modelled beyond the `task_complete` flag. -/
def agentIter (models : List ModelInfo) (ctx : ℕ) (call : Option CallResult)
    (st : AgentState) : AgentState × IterResult :=
  let st1 : AgentState := { st with step := st.step + 1 }
  match routerCheapest models with
  | none => (st1, .crashed)
  | some cheapest =>
    let min_cost := cheapest.estimate_call_cost 500 100
    if ¬ st.bt.can_afford min_cost then (st1, .exhausted)
    else
      let step_type := if st1.step = 1 then StepType.PLAN else StepType.EXECUTE
      match ModelRouter.select models st.bt step_type (ctx + 500) 1000 with
      | none => (st1, .crashed)
      | some model_info =>
        match st.bt.max_output_tokens model_info.input_cost_per_1m
            model_info.output_cost_per_1m (ctx + 500) with
        | none => (st1, .crashed)
        | some _max_tokens =>
          match call with
          | none => (st1, .providers_failed)
          | some r =>
            let bt1 := (st.bt.record
              { model_id := model_info.id, input_tokens := r.input_tokens,
                output_tokens := r.output_tokens,
                input_cost_per_1m := model_info.input_cost_per_1m,
                output_cost_per_1m := model_info.output_cost_per_1m,
                step := st1.step }).1
            let completed1 :=
              if r.has_tool_calls then (st.completed || r.has_task_complete)
              else if r.end_turn ∧ 1 < st1.step then true
              else st.completed
            let bt2 :=
              if completed1 then bt1
              else bt1.set_estimated_remaining_steps (bt1.estimated_remaining_steps - 1)
            ({ bt := bt2, step := st1.step, completed := completed1,
               provider_calls := st.provider_calls + 1 }, .stepped)

/-- How `Agent.run`'s loop ended: normally (completion or the
`MAX_STEPS = 200` ceiling), by reporting budget exhaustion, because every
provider failed, or at a modelled Python crash point. -/
inductive ExitKind where
  | finished
  | budget_exhausted
  | providers_failed
  | crashed
deriving DecidableEq, Repr

/-- The `while not self.completed and step < MAX_STEPS` loop of
`Agent.run`, driven by per-step oracles.  `fuel` starts at
`MAX_STEPS = 200` while `step` starts at 0 and grows by one per
iteration, so `fuel = 0` coincides with the `step < MAX_STEPS` test
failing. -/
def agentLoop (models : List ModelInfo) (ctx : ℕ → ℕ)
    (calls : ℕ → Option CallResult) : ℕ → AgentState → AgentState × ExitKind
  | 0, st => (st, .finished)
  | fuel + 1, st =>
    if st.completed then (st, .finished)
    else
      match agentIter models (ctx st.step) (calls st.step) st with
      | (st2, .exhausted) => (st2, .budget_exhausted)
      | (st2, .providers_failed) => (st2, .providers_failed)
      | (st2, .crashed) => (st2, .crashed)
      | (st2, .stepped) => agentLoop models ctx calls fuel st2

/-- `Agent.__init__` + the start of `Agent.run`: fresh tracker, step 0,
not completed, no provider call yet; `est0` is the word-count-based
initial step estimate (stored through the clamping setter). -/
def agentStart (budget : ℚ) (est0 : ℤ) : AgentState :=
  { bt := (BudgetTracker.init budget).set_estimated_remaining_steps est0,
    step := 0, completed := false, provider_calls := 0 }

/-- C1: whenever an iteration of the agent loop begins (fuel left, not yet
completed) with remaining budget below the cheapest model's estimated cost
for a minimal 500/100-token call, the loop exits reporting budget
exhaustion from that very iteration, the provider is not called, and the
cost-record list gains no entry: only the step counter changes. -/
theorem budget_guard_stops_loop (models : List ModelInfo) (ctx : ℕ → ℕ)
    (calls : ℕ → Option CallResult) (fuel : ℕ) (st : AgentState)
    (c : ModelInfo)
    (hch : routerCheapest models = some c)
    (hnc : st.completed = false)
    (hrem : st.bt.remaining < c.estimate_call_cost 500 100) :
    agentLoop models ctx calls (fuel + 1) st
        = ({ st with step := st.step + 1 }, .budget_exhausted) ∧
      (agentLoop models ctx calls (fuel + 1) st).1.bt.records = st.bt.records ∧
      (agentLoop models ctx calls (fuel + 1) st).1.provider_calls = st.provider_calls := by
  have hcond : ¬ st.bt.can_afford (ModelInfo.estimate_call_cost c 500 100) := not_le.2 hrem
  have hiter : agentIter models (ctx st.step) (calls st.step) st
      = ({ st with step := st.step + 1 }, .exhausted) := by
    simp only [agentIter, hch, hcond, not_false_eq_true, if_true]
  have hloop : agentLoop models ctx calls (fuel + 1) st
      = ({ st with step := st.step + 1 }, .budget_exhausted) := by
    simp only [agentLoop, hnc, Bool.false_eq_true, if_false, hiter]
  exact ⟨hloop, by rw [hloop], by rw [hloop]⟩

/-- C1 witness, the spec's Scenario A: budget 0.0005 USD, a single premium
model at 15/75 USD per million tokens, whose minimal-call floor
(500 input, 100 output tokens) costs 0.015 USD.  The loop exits
immediately with `budget_exhausted` and an empty record list. -/
theorem budget_guard_stops_loop_witness :
    agentLoop [⟨"claude-opus-4-20250514", "anthropic", .PREMIUM, 15, 75, 200000⟩]
        (fun _ => 0) (fun _ => none) (199 + 1) (agentStart (5 / 10000) 5)
        = ({ agentStart (5 / 10000) 5 with step := 0 + 1 }, .budget_exhausted) ∧
      ((agentLoop [⟨"claude-opus-4-20250514", "anthropic", .PREMIUM, 15, 75, 200000⟩]
        (fun _ => 0) (fun _ => none) (199 + 1) (agentStart (5 / 10000) 5)).1.bt.records
        = (agentStart (5 / 10000) 5).bt.records) ∧
      ((agentLoop [⟨"claude-opus-4-20250514", "anthropic", .PREMIUM, 15, 75, 200000⟩]
        (fun _ => 0) (fun _ => none) (199 + 1) (agentStart (5 / 10000) 5)).1.provider_calls
        = (agentStart (5 / 10000) 5).provider_calls) :=
  budget_guard_stops_loop _ _ _ 199 (agentStart (5 / 10000) 5)
    ⟨"claude-opus-4-20250514", "anthropic", .PREMIUM, 15, 75, 200000⟩
    (by norm_num [routerCheapest, pyMinBy])
    (by norm_num [agentStart, BudgetTracker.set_estimated_remaining_steps, BudgetTracker.init])
    (by norm_num [agentStart, ModelInfo.estimate_call_cost, BudgetTracker.remaining,
      BudgetTracker.set_estimated_remaining_steps, BudgetTracker.init])

/-- The whitespace class of the regexes and `str.strip()` in
`src/lib/brain.py` (Python `\s` on the ASCII range; the non-ASCII Unicode
whitespace Python also accepts does not occur in these claims). -/
def isPySpace (c : Char) : Bool :=
  c = ' ' ∨ c = '\t' ∨ c = '\n' ∨ c = '\r' ∨ c = '\x0b' ∨ c = '\x0c'

/-- Python `str.strip()`: drop whitespace from both ends. -/
def pyStrip (s : List Char) : List Char :=
  ((s.dropWhile isPySpace).reverse.dropWhile isPySpace).reverse

/-- Matching one line against the task regex
`^\s*[-*]\s*\[([ x/])\]\s*(.+)$` of `src/lib/brain.py` and stripping the
text group, returning the marker (group 1) and the stripped text.  The
trailing `\s*(.+)$` succeeds exactly when at least one character follows
`]`, and the stripped group-2 text then equals the remainder stripped
(the greedy `\s*` backtracks just enough to leave `(.+)` non-empty; the
subsequent `.strip()` removes whatever whitespace remains on either
side). -/
def parseTaskLine (line : List Char) : Option (Char × List Char) :=
  match line.dropWhile isPySpace with
  | [] => none
  | b :: s2 =>
    if b = '-' ∨ b = '*' then
      match s2.dropWhile isPySpace with
      | '[' :: m :: ']' :: rest =>
        if (m = ' ' ∨ m = 'x' ∨ m = '/') ∧ rest ≠ [] then some (m, pyStrip rest)
        else none
      | _ => none
    else none

/-- Task status as `read_task_plan` reports it. -/
inductive TaskStatus where
  | pending
  | done
  | running
deriving DecidableEq, Repr

/-- The marker-to-status mapping inside `read_task_plan`: default
`"pending"`, `"done"` when `marker.lower() == "x"`, `"running"` when
`marker == "/"`. -/
def statusOfMarker (m : Char) : TaskStatus :=
  if m.toLower = 'x' then .done
  else if m = '/' then .running
  else .pending

/-- One entry of the parsed task plan. -/
structure TaskEntry where
  status : TaskStatus
  text : List Char
  original_line : List Char
deriving DecidableEq, Repr

/-- `BrainManager.read_task_plan`: every line matching the task regex, in
file order, becomes an entry. -/
def read_task_plan (lines : List (List Char)) : List TaskEntry :=
  lines.filterMap (fun line =>
    (parseTaskLine line).map (fun mt =>
      { status := statusOfMarker mt.1, text := mt.2, original_line := line }))

/-- `BrainManager.get_next_pending_task`: the first parsed entry whose
status is pending, or nothing. -/
def get_next_pending_task (lines : List (List Char)) : Option (List Char) :=
  ((read_task_plan lines).find? (fun t => t.status = TaskStatus.pending)).map (fun t => t.text)

/-- `marker_map.get(status, "[ ]")` in `BrainManager.mark_task_status`. -/
def markerFor (status : String) : List Char :=
  if status = "running" then ['[', '/', ']']
  else if status = "done" then ['[', 'x', ']']
  else if status = "pending" then ['[', ' ', ']']
  else ['[', ' ', ']']

/-- `line[:line.find("-")]` in `mark_task_status`: everything before the
first `-`; when the line has no `-`, Python `find` returns -1 and the
slice `line[:-1]` is the line minus its last character. -/
def lineIndent (line : List Char) : List Char :=
  match line.findIdx? (fun c => c = '-') with
  | some i => line.take i
  | none => line.take (line.length - 1)

/-- The per-line body of `BrainManager.mark_task_status`: a line matching
the task regex whose stripped text equals the target is rewritten as
`f"{indent}- {marker} {current_text}"`; every other line is kept. -/
def markLine (task_text : List Char) (marker : List Char) (line : List Char) : List Char :=
  match parseTaskLine line with
  | some mt =>
    if mt.2 = task_text then
      lineIndent line ++ '-' :: ' ' :: (marker ++ ' ' :: mt.2)
    else line
  | none => line

/-- `BrainManager.mark_task_status(task_text, status)` on the file's
lines. -/
def mark_task_status (lines : List (List Char)) (task_text : List Char)
    (status : String) : List (List Char) :=
  lines.map (markLine task_text (markerFor status))

theorem dropWhile_append_all (p : Char → Bool) (ws l : List Char)
    (h : ∀ c ∈ ws, p c) : (ws ++ l).dropWhile p = l.dropWhile p := by
  induction ws with
  | nil => rfl
  | cons w ws ih =>
    have hw : p w := h w (List.mem_cons_self w ws)
    simp only [List.cons_append, List.dropWhile_cons, hw, if_true]
    exact ih (fun c hc => h c (List.mem_cons_of_mem w hc))

/-- A markdown checkbox line as the spec's grammar describes it: optional
whitespace, a `-` or `*` bullet, optional whitespace, `[`, a marker from
the class `[ x/]`, `]`, and a non-empty remainder whose stripped form is
the display text. -/
def IsTaskLine (line : List Char) (m : Char) (text : List Char) : Prop :=
  ∃ ws b ws2 rest, (∀ c ∈ ws, isPySpace c) ∧ (b = '-' ∨ b = '*') ∧
    (∀ c ∈ ws2, isPySpace c) ∧ (m = ' ' ∨ m = 'x' ∨ m = '/') ∧ rest ≠ [] ∧
    text = pyStrip rest ∧ line = ws ++ b :: (ws2 ++ '[' :: m :: ']' :: rest)

theorem parseTaskLine_eq_of_drop (line : List Char) (b : Char) (s2 : List Char)
    (hd : line.dropWhile isPySpace = b :: s2) :
    parseTaskLine line = if b = '-' ∨ b = '*' then
      (match s2.dropWhile isPySpace with
       | '[' :: m :: ']' :: rest =>
         if (m = ' ' ∨ m = 'x' ∨ m = '/') ∧ rest ≠ [] then some (m, pyStrip rest) else none
       | _ => none)
    else none := by
  unfold parseTaskLine
  rw [hd]

theorem parseTaskLine_iff (line : List Char) (m : Char) (txt : List Char) :
    parseTaskLine line = some (m, txt) ↔ IsTaskLine line m txt := by
  constructor
  · intro h
    unfold parseTaskLine at h
    split at h
    · cases h
    · rename_i b s2 hd
      split at h
      · rename_i hb
        split at h
        · rename_i m0 rest hd2
          split at h
          · rename_i hcond
            injection h with h
            injection h with h1 h2
            subst h1; subst h2
            refine ⟨line.takeWhile isPySpace, b, s2.takeWhile isPySpace, rest,
              fun c hc => List.mem_takeWhile_imp hc, hb,
              fun c hc => List.mem_takeWhile_imp hc, hcond.1, hcond.2, rfl, ?_⟩
            conv_lhs => rw [← List.takeWhile_append_dropWhile (p := isPySpace) (l := line)]
            rw [hd]
            congr 1
            congr 1
            conv_lhs => rw [← List.takeWhile_append_dropWhile (p := isPySpace) (l := s2)]
            rw [hd2]
          · cases h
        · cases h
      · cases h
  · rintro ⟨ws, b, ws2, rest, hws, hb, hws2, hm, hrest, htxt, hline⟩
    have hbns : isPySpace b = false := by
      rcases hb with rfl | rfl <;> rfl
    have h1 : line.dropWhile isPySpace = b :: (ws2 ++ '[' :: m :: ']' :: rest) := by
      rw [hline, dropWhile_append_all isPySpace ws _ hws, List.dropWhile_cons, hbns]
      simp
    have h2 : (ws2 ++ '[' :: m :: ']' :: rest).dropWhile isPySpace
        = '[' :: m :: ']' :: rest := by
      rw [dropWhile_append_all isPySpace ws2 _ hws2, List.dropWhile_cons]
      rfl
    rw [parseTaskLine_eq_of_drop line b _ h1, if_pos hb, h2]
    show (if (m = ' ' ∨ m = 'x' ∨ m = '/') ∧ rest ≠ [] then some (m, pyStrip rest) else none)
      = some (m, txt)
    rw [if_pos ⟨hm, hrest⟩, htxt]

theorem find?_eq_some_split {α : Type} (p : α → Bool) (l : List α) (x : α) :
    l.find? p = some x ↔
      ∃ l1 l2, l = l1 ++ x :: l2 ∧ p x = true ∧ ∀ y ∈ l1, p y = false := by
  induction l with
  | nil =>
    constructor
    · intro h; cases h
    · rintro ⟨l1, l2, hl, -, -⟩
      exact absurd hl (by simp)
  | cons a l ih =>
    by_cases hpa : p a = true
    · rw [List.find?_cons_of_pos _ hpa]
      constructor
      · intro h
        injection h with h
        subst h
        exact ⟨[], l, rfl, hpa, by simp⟩
      · rintro ⟨l1, l2, hl, hpx, hall⟩
        cases l1 with
        | nil =>
          injection hl with h1 h2
          rw [h1]
        | cons b l1 =>
          injection hl with h1 h2
          have hb : p b = false := hall b (List.mem_cons_self b l1)
          rw [← h1] at hb
          rw [hpa] at hb
          cases hb
    · have hpa' : p a = false := by
        cases hval : p a
        · rfl
        · exact absurd hval hpa
      rw [List.find?_cons_of_neg _ (by simp [hpa'])]
      rw [ih]
      constructor
      · rintro ⟨l1, l2, hl, hpx, hall⟩
        refine ⟨a :: l1, l2, by rw [hl]; rfl, hpx, ?_⟩
        intro y hy
        rcases List.mem_cons.1 hy with heq | hy
        · rw [heq, hpa']
        · exact hall y hy
      · rintro ⟨l1, l2, hl, hpx, hall⟩
        cases l1 with
        | nil =>
          injection hl with h1 h2
          rw [h1] at hpa'
          rw [hpx] at hpa'
          cases hpa'
        | cons b l1 =>
          injection hl with h1 h2
          exact ⟨l1, l2, h2, hpx, fun y hy => hall y (List.mem_cons_of_mem b hy)⟩

/-- C8 counterexample: the line `- [X] A` carries the capital marker `X`,
which the regex character class `[ x/]` does not accept, so
`read_task_plan` produces no entry for it at all (the line is prose) —
contradicting the claim that a marker `'X'` is parsed as status done. -/
theorem capital_x_marker_is_prose :
    read_task_plan ["- [X] A".data] = [] ∧
    read_task_plan ["- [X] A".data]
      ≠ [{ status := .done, text := "A".data, original_line := "- [X] A".data }] := by
  constructor
  · rfl
  · decide

/-- C8 (amended: the accepted markers are exactly `' '`, `'x'` and `'/'`,
case-sensitively — a capital `'X'` line does not match the regex and is
prose): a line is classified as a task entry exactly when it matches the
checkbox grammar, with marker `' '` parsed as pending, `'x'` as done and
`'/'` as running, every non-matching line contributing no entry; and
`get_next_pending_task` returns the display text of the first entry in
file order whose status is pending, or nothing when there is none. -/
theorem task_plan_parser_spec :
    (∀ (line : List Char) (m : Char) (txt : List Char),
      parseTaskLine line = some (m, txt) ↔ IsTaskLine line m txt) ∧
    (statusOfMarker ' ' = .pending ∧ statusOfMarker 'x' = .done ∧
      statusOfMarker '/' = .running) ∧
    (∀ line, parseTaskLine line = none → read_task_plan [line] = []) ∧
    (∀ (line : List Char) (m : Char) (txt : List Char),
      parseTaskLine line = some (m, txt) →
        read_task_plan [line]
          = [{ status := statusOfMarker m, text := txt, original_line := line }]) ∧
    (∀ lines, (get_next_pending_task lines = none ↔
        ∀ e ∈ read_task_plan lines, e.status ≠ .pending) ∧
      (∀ t, get_next_pending_task lines = some t ↔
        ∃ l1 e l2, read_task_plan lines = l1 ++ e :: l2 ∧ e.status = .pending ∧
          e.text = t ∧ ∀ e' ∈ l1, e'.status ≠ .pending)) := by
  refine ⟨parseTaskLine_iff, ⟨rfl, rfl, rfl⟩, ?_, ?_, ?_⟩
  · intro line hnone
    simp [read_task_plan, hnone]
  · intro line m txt hsome
    simp [read_task_plan, hsome]
  · intro lines
    constructor
    · rw [get_next_pending_task, Option.map_eq_none', List.find?_eq_none]
      constructor
      · intro h e he
        have := h e he
        simpa using this
      · intro h e he
        simpa using h e he
    · intro t
      rw [get_next_pending_task, Option.map_eq_some']
      constructor
      · rintro ⟨e, hfind, htext⟩
        rcases (find?_eq_some_split _ _ _).1 hfind with ⟨l1, l2, hl, hpx, hall⟩
        refine ⟨l1, e, l2, hl, by simpa using hpx, htext, ?_⟩
        intro e' he'
        simpa using hall e' he'
      · rintro ⟨l1, e, l2, hl, hst, htext, hall⟩
        refine ⟨e, ?_, htext⟩
        rw [find?_eq_some_split]
        exact ⟨l1, l2, hl, by simpa using hst, fun y hy => by simpa using hall y hy⟩

theorem findIdx?_dash (ws rest : List Char) (hws : ∀ c ∈ ws, isPySpace c) :
    (ws ++ '-' :: rest).findIdx? (fun c => c = '-') = some ws.length := by
  induction ws with
  | nil => simp [List.findIdx?_cons]
  | cons w ws ih =>
    have hw : isPySpace w := hws w (List.mem_cons_self w ws)
    have hwd : ¬ (w = '-') := by
      intro heq
      rw [heq] at hw
      exact absurd hw (by decide)
    rw [List.cons_append, List.findIdx?_cons]
    simp [hwd, ih (fun c hc => hws c (List.mem_cons_of_mem w hc))]

/-- C7 counterexample: the task line `* [ ] A` matches the regex (bullet
`*`) and its display text equals the target, but the rewrite computes the
prefix `line[:line.find("-")]`; the line contains no `-`, Python `find`
returns -1, and the slice keeps everything but the last character, so
`mark(A, running)` turns the line into `* [ ] - [/] A` instead of a
rewrite preserving the indentation (here empty) before the bullet, which
would give `- [/] A`. -/
theorem mark_star_bullet_counterexample :
    mark_task_status ["* [ ] A".data] "A".data "running" = ["* [ ] - [/] A".data] ∧
    mark_task_status ["* [ ] A".data] "A".data "running" ≠ ["- [/] A".data] := by
  constructor
  · rfl
  · decide

/-- C7 (amended: the indentation-preserving rewrite holds for matching
lines whose bullet is `-`; for a matching `*`-bullet line the code slices
up to the first `-` of the whole line — `line[:-1]` when there is none —
and does not preserve the bullet): `mark(t, s)` maps the file line by
line; every line not matching the task regex and every task line whose
display text differs from `t` is kept verbatim, and each matching line
with a `-` bullet becomes its leading whitespace followed by
`- <marker for s> t`. -/
theorem mark_task_status_frame (lines : List (List Char)) (t : List Char) (s : String) :
    mark_task_status lines t s = lines.map (markLine t (markerFor s)) ∧
    (∀ line, parseTaskLine line = none → markLine t (markerFor s) line = line) ∧
    (∀ line m txt, parseTaskLine line = some (m, txt) → txt ≠ t →
      markLine t (markerFor s) line = line) ∧
    (∀ line m ws rest, line = ws ++ '-' :: rest → (∀ c ∈ ws, isPySpace c) →
      parseTaskLine line = some (m, t) →
      markLine t (markerFor s) line = ws ++ '-' :: ' ' :: (markerFor s ++ ' ' :: t)) := by
  refine ⟨rfl, ?_, ?_, ?_⟩
  · intro line hnone
    unfold markLine
    rw [hnone]
  · intro line m txt hsome hne
    unfold markLine
    rw [hsome]
    exact if_neg hne
  · intro line m ws rest hline hws hsome
    have hindent : lineIndent line = ws := by
      unfold lineIndent
      rw [hline, findIdx?_dash ws rest hws]
      exact List.take_left ws ('-' :: rest)
    unfold markLine
    rw [hsome]
    show (if t = t then lineIndent line ++ '-' :: ' ' :: (markerFor s ++ ' ' :: t) else line)
      = ws ++ '-' :: ' ' :: (markerFor s ++ ' ' :: t)
    rw [if_pos rfl, hindent]

/-- Python `content.count(old)` for a non-empty pattern: non-overlapping
occurrences scanning left to right.  Structural recursion on a fuel that
starts at the content length (each step consumes at least one character,
so that fuel is always enough). -/
def countOccAux (pat : List Char) : ℕ → List Char → ℕ
  | 0, _ => 0
  | _ + 1, [] => 0
  | fuel + 1, c :: rest =>
    if pat.isPrefixOf (c :: rest) then 1 + countOccAux pat fuel (rest.drop (pat.length - 1))
    else countOccAux pat fuel rest

/-- Python `content.count(old)`: an empty pattern counts `len + 1`
(one match at every position), otherwise non-overlapping left-to-right
occurrences. -/
def countOcc (s pat : List Char) : ℕ :=
  if pat = [] then s.length + 1 else countOccAux pat s.length s

/-- Python `content.replace(old, new, 1)` for a non-empty pattern:
replace the leftmost occurrence, keep everything else. -/
def replaceOnceAux (pat new : List Char) : List Char → List Char
  | [] => []
  | c :: rest =>
    if pat.isPrefixOf (c :: rest) then new ++ rest.drop (pat.length - 1)
    else c :: replaceOnceAux pat new rest

/-- Python `content.replace(old, new, 1)`: an empty pattern inserts `new`
in front, otherwise the leftmost occurrence is replaced. -/
def replaceOnce (s pat new : List Char) : List Char :=
  if pat = [] then new ++ s else replaceOnceAux pat new s

/-- `ToolRegistry._tool_edit_file` on a file that exists, given its
content: the first component is `some` of the written content when the
write happens and `none` when the file is left untouched; the second is
the returned message. -/
def editFile (path : String) (content old new : List Char) :
    Option (List Char) × String :=
  if countOcc content old = 0 then (none, "Error: old_string not found in file")
  else if 1 < countOcc content old then
    (none, "Error: old_string found " ++ toString (countOcc content old)
      ++ " times, must be unique. Add more context.")
  else (some (replaceOnce content old new),
    "Edited " ++ path ++ ": replaced 1 occurrence")

theorem countOccAux_pos_decomp (pat : List Char) (hp : pat ≠ []) (new : List Char) :
    ∀ (fuel : ℕ) (s : List Char), s.length ≤ fuel → 1 ≤ countOccAux pat fuel s →
      ∃ pre post, s = pre ++ pat ++ post ∧
        replaceOnceAux pat new s = pre ++ new ++ post := by
  intro fuel
  induction fuel with
  | zero =>
    intro s hlen hcount
    rw [countOccAux] at hcount
    cases hcount
  | succ fuel ih =>
    intro s hlen hcount
    cases s with
    | nil =>
      rw [countOccAux] at hcount
      cases hcount
    | cons c rest =>
      by_cases hpre : pat.isPrefixOf (c :: rest)
      · have hfx : pat <+: c :: rest := by
          rwa [← List.isPrefixOf_iff_prefix]
        rcases hfx with ⟨post0, hpost0⟩
        have hpost : post0 = rest.drop (pat.length - 1) := by
          have hlp : 1 ≤ pat.length := List.length_pos.2 hp
          have := congrArg (List.drop pat.length) hpost0
          rw [List.drop_left] at this
          rw [this]
          cases hq : pat.length with
          | zero => omega
          | succ q =>
            rw [List.drop_succ_cons]
            norm_num
        refine ⟨[], rest.drop (pat.length - 1), ?_, ?_⟩
        · rw [List.nil_append, ← hpost, hpost0]
        · rw [replaceOnceAux, if_pos hpre, List.nil_append]
      · rw [countOccAux, if_neg hpre] at hcount
        have hlen' : rest.length ≤ fuel := by
          simp only [List.length_cons] at hlen
          omega
        rcases ih rest hlen' hcount with ⟨pre, post, hdec, hrep⟩
        refine ⟨c :: pre, post, by rw [hdec]; rfl, ?_⟩
        rw [replaceOnceAux, if_neg hpre, hrep]
        rfl

/-- C6: `edit_file` writes the file exactly when `old` occurs exactly once
in the content; the single write replaces that sole occurrence (the
content splits as `pre ++ old ++ post` and the written content is
`pre ++ new ++ post`) and reports success; with occurrence count 0 or
greater than 1 nothing is written — the content stays byte-identical —
and the returned message begins with `Error:`. -/
theorem edit_file_unique_occurrence (path : String) (content old new : List Char) :
    ((editFile path content old new).1.isSome = true ↔ countOcc content old = 1) ∧
    (countOcc content old = 1 →
      (editFile path content old new).1 = some (replaceOnce content old new) ∧
      (editFile path content old new).2
        = "Edited " ++ path ++ ": replaced 1 occurrence" ∧
      ∃ pre post, content = pre ++ old ++ post ∧
        replaceOnce content old new = pre ++ new ++ post) ∧
    (countOcc content old ≠ 1 →
      (editFile path content old new).1 = none ∧
      List.IsPrefix "Error:".data ((editFile path content old new).2).data) := by
  by_cases h1 : countOcc content old = 1
  · have hne0 : ¬ (countOcc content old = 0) := by omega
    have hngt : ¬ (1 < countOcc content old) := by omega
    have hedit : editFile path content old new
        = (some (replaceOnce content old new),
           "Edited " ++ path ++ ": replaced 1 occurrence") := by
      unfold editFile
      rw [if_neg hne0, if_neg hngt]
    refine ⟨by rw [hedit]; simp [h1], fun _ => ⟨by rw [hedit], by rw [hedit], ?_⟩,
      fun hc => absurd h1 hc⟩
    by_cases hold : old = []
    · subst hold
      have hc0 : content = [] := by
        rw [countOcc, if_pos rfl] at h1
        have : content.length = 0 := by omega
        exact List.length_eq_zero.1 this
      subst hc0
      exact ⟨[], [], rfl, by rw [replaceOnce, if_pos rfl]; simp⟩
    · have hcount : 1 ≤ countOccAux old content.length content := by
        rw [countOcc, if_neg hold] at h1
        omega
      rcases countOccAux_pos_decomp old hold new content.length content le_rfl hcount
        with ⟨pre, post, hdec, hrep⟩
      exact ⟨pre, post, hdec, by rw [replaceOnce, if_neg hold, hrep]⟩
  · refine ⟨?_, fun hc => absurd hc h1, fun _ => ?_⟩
    · by_cases h0 : countOcc content old = 0
      · have hedit : (editFile path content old new).1 = none := by
          unfold editFile
          rw [if_pos h0]
        rw [hedit]
        simp [h1]
      · have hgt : 1 < countOcc content old := by omega
        have hedit : (editFile path content old new).1 = none := by
          unfold editFile
          rw [if_neg h0, if_pos hgt]
        rw [hedit]
        simp [h1]
    · by_cases h0 : countOcc content old = 0
      · have hedit : editFile path content old new
            = (none, "Error: old_string not found in file") := by
          unfold editFile
          rw [if_pos h0]
        rw [hedit]
        exact ⟨rfl, by decide⟩
      · have hgt : 1 < countOcc content old := by omega
        have hedit : editFile path content old new
            = (none, "Error: old_string found " ++ toString (countOcc content old)
                ++ " times, must be unique. Add more context.") := by
          unfold editFile
          rw [if_neg h0, if_pos hgt]
        rw [hedit]
        refine ⟨rfl, ?_⟩
        show List.IsPrefix "Error:".data
          ("Error: old_string found " ++ toString (countOcc content old)
            ++ " times, must be unique. Add more context.").data
        rw [String.data_append, String.data_append]
        have h6 : List.IsPrefix "Error:".data "Error: old_string found ".data := by decide
        exact h6.trans (List.prefix_append _ _)

/-- The outcome of running a piece of Python code that may raise: either
the returned value or the raised exception's type name and message. -/
inductive PyResult (α : Type) where
  | ok (value : α)
  | exn (exnType : String) (msg : String)

/-- The argument mapping a tool call carries (JSON object, modelled as
key/value pairs). -/
def ToolArgs : Type := List (String × String)

/-- `ToolRegistry.execute` (`src/agent/tools.py`): look the handler up in
the instance's method table (`getattr(self, f"_tool_{name}", None)`,
modelled by the `handlers` map over the seven `_tool_*` methods), report
an unknown tool, and wrap the handler invocation — including any
exception it raises, e.g. a `TypeError` from a bad argument mapping — in
the `try/except` that renders exceptions as `Error:` strings. -/
def ToolRegistry.execute (handlers : String → Option (ToolArgs → PyResult String))
    (name : String) (args : ToolArgs) : String :=
  match handlers name with
  | none => "Error: Unknown tool \x27" ++ name ++ "\x27"
  | some h =>
    match h args with
    | .ok s => s
    | .exn ty msg => "Error: " ++ ty ++ ": " ++ msg

/-- C9: `execute` is a total function into strings — exceptions never
cross the tool boundary, because the `try/except` around dispatch and
handler maps them to strings — and each failure case (unknown tool name,
handler exception) yields a string beginning with `Error:`; a handler's
returned string is passed through unchanged. -/
theorem execute_returns_string_errors_as_strings
    (handlers : String → Option (ToolArgs → PyResult String))
    (name : String) (args : ToolArgs) :
    (handlers name = none →
      ToolRegistry.execute handlers name args = "Error: Unknown tool \x27" ++ name ++ "\x27" ∧
      List.IsPrefix "Error:".data (ToolRegistry.execute handlers name args).data) ∧
    (∀ h ty msg, handlers name = some h → h args = .exn ty msg →
      ToolRegistry.execute handlers name args = "Error: " ++ ty ++ ": " ++ msg ∧
      List.IsPrefix "Error:".data (ToolRegistry.execute handlers name args).data) ∧
    (∀ h s, handlers name = some h → h args = .ok s →
      ToolRegistry.execute handlers name args = s) := by
  refine ⟨?_, ?_, ?_⟩
  · intro hnone
    have hex : ToolRegistry.execute handlers name args
        = "Error: Unknown tool \x27" ++ name ++ "\x27" := by
      unfold ToolRegistry.execute
      rw [hnone]
    refine ⟨hex, ?_⟩
    rw [hex, String.data_append, String.data_append]
    exact (by decide : List.IsPrefix "Error:".data "Error: Unknown tool \x27".data).trans
      (List.prefix_append _ _)
  · intro h ty msg hsome hexn
    have hex : ToolRegistry.execute handlers name args = "Error: " ++ ty ++ ": " ++ msg := by
      unfold ToolRegistry.execute
      rw [hsome]
      show (match h args with
        | PyResult.ok s => s
        | PyResult.exn ty msg => "Error: " ++ ty ++ ": " ++ msg) = "Error: " ++ ty ++ ": " ++ msg
      rw [hexn]
    refine ⟨hex, ?_⟩
    rw [hex, String.data_append, String.data_append, String.data_append]
    exact (by decide : List.IsPrefix "Error:".data "Error: ".data).trans
      (by rw [List.append_assoc, List.append_assoc]; exact List.prefix_append _ _)
  · intro h s hsome hok
    unfold ToolRegistry.execute
    rw [hsome]
    show (match h args with
      | PyResult.ok s => s
      | PyResult.exn ty msg => "Error: " ++ ty ++ ": " ++ msg) = s
    rw [hok]

/-- `JobStatus` (`src/lib/jules_wrapper.py`); timestamps are opaque
ticks. -/
structure JobStatus where
  job_id : String
  state : String
  current_step : String
  pr_link : Option String := none
  branch_name : Option String := none
  started_at : Option ℕ := none
  completed_at : Option ℕ := none
  error : Option String := none
deriving DecidableEq, Repr

/-- `JulesWrapper.cancel(job_id)`: run `jules cancel <job_id>`
(`cmdResult` is that external command's outcome; `_run_jules` raises when
the exit code is non-zero); on success set the tracked job's state — if
the id is tracked at all — to `CANCELLED` and return `True`; when the
command raises, return `False` inside the `except` with the tracked jobs
untouched. -/
def JulesWrapper.cancel (active : List (String × JobStatus)) (job_id : String)
    (cmdResult : PyResult String) : List (String × JobStatus) × Bool :=
  match cmdResult with
  | .exn _ _ => (active, false)
  | .ok _ =>
    (active.map (fun kv =>
      if kv.1 = job_id then (kv.1, { kv.2 with state := "CANCELLED" }) else kv), true)

/-- C10: when the external cancel command fails, `cancel` returns `False`
and every tracked job — in particular the one with the given id — keeps
its status exactly as it was (nothing is set to `CANCELLED`); it returns
`True`, and only then rewrites the tracked state to `CANCELLED`, exactly
when the external command succeeds. -/
theorem cancel_failure_leaves_jobs_untouched
    (active : List (String × JobStatus)) (job_id : String)
    (cmdResult : PyResult String) :
    (∀ ty msg, cmdResult = .exn ty msg →
      JulesWrapper.cancel active job_id cmdResult = (active, false)) ∧
    ((JulesWrapper.cancel active job_id cmdResult).2 = true ↔
      ∃ s, cmdResult = .ok s) ∧
    (∀ s, cmdResult = .ok s →
      JulesWrapper.cancel active job_id cmdResult
        = (active.map (fun kv =>
            if kv.1 = job_id then (kv.1, { kv.2 with state := "CANCELLED" }) else kv),
           true)) := by
  refine ⟨?_, ?_, ?_⟩
  · rintro ty msg rfl
    rfl
  · cases cmdResult with
    | ok s => simp [JulesWrapper.cancel]
    | exn ty msg => simp [JulesWrapper.cancel]
  · rintro s rfl
    rfl
